import Mathlib

/-!
Shallow embedding of `aiomisc/worker_pool/pool.py` (class `WorkerPool`).

Conventions:
* Byte strings (cookie, salt, digests) are `List Nat`.
* A child process handle (`subprocess.Popen`) is a `Process` record; the ghost
  field `killed` records whether `process.kill()` was invoked on it.
* Futures (`asyncio.Future`) are `Fut α`: pending, resolved with a value,
  resolved with an exception, or cancelled; `done` is every non-pending state.
* The per-connection handler is modelled one loop iteration at a time as a pure
  function from the dequeued task descriptor's future states and the observed
  wire response to the new future states, an ordered action trace, and a
  control outcome (continue / break / raised exception).
* The event loop is single threaded; mutations between two suspension points of
  one coroutine are modelled as one atomic function.
-/

set_option autoImplicit false

namespace WorkerPoolModel

/-- Exceptions that appear in `pool.py`. -/
inductive Err where
  /-- `multiprocessing.AuthenticationError("Invalid cookie")`. -/
  | authentication
  /-- `KeyError`, raised by `dict.pop` on a missing key. -/
  | keyError
  /-- `multiprocessing.ProcessError("Process ... exited with code ...")`
      carrying the child's exit code. -/
  | processExit (returncode : Int)
  /-- `RuntimeError("Pool closed")`, built only in `__reject_futures`. -/
  | poolClosed
  /-- `ValueError("Unknown packet type")`. -/
  | valueError
  deriving DecidableEq, Repr

/-- State of an `asyncio.Future`. -/
inductive Fut (α : Type) where
  | pending
  | result (a : α)
  | exception (e : Err)
  | cancelled
  deriving DecidableEq, Repr

/-- `future.done()`: every state except pending. -/
def Fut.done {α : Type} : Fut α → Bool
  | Fut.pending => false
  | _ => true

/-- A `subprocess.Popen` handle. `returncode` is `None` while the child runs;
`killed` is a ghost flag recording that `process.kill()` was invoked. -/
structure Process where
  pid : Nat
  returncode : Option Int
  killed : Bool
  deriving DecidableEq, Repr

/-- `WorkerPool._kill_process`: do nothing when `process.returncode` is already
set, otherwise invoke `process.kill()`. -/
def _kill_process (process : Process) : Process :=
  if process.returncode.isSome then process
  else { process with killed := true }

/-- Packet types of `worker_pool.constants.PacketTypes` used by `pool.py`. -/
inductive PacketType where
  | AUTH_SALT
  | AUTH_DIGEST
  | AUTH_OK
  | IDENTITY
  | REQUEST
  | RESULT
  | EXCEPTION
  deriving DecidableEq, Repr

/-- Payload of a packet the parent sends, abstracted to what `pool.py` puts in. -/
inductive Payload where
  /-- the `True` sent with `AUTH_OK` -/
  | ok
  /-- a pickled exception -/
  | exc (e : Err)
  /-- the `(func, args, kwargs)` triple of a `REQUEST` -/
  | request
  deriving DecidableEq, Repr

/-- Observable effects of the handler coroutine, in program order. -/
inductive Action where
  /-- `send(packet_type, data)` on this connection's writer -/
  | send (p : PacketType) (pl : Payload)
  /-- `await self.__wait_process(process)` returned, i.e. the child exited -/
  | wait_process
  /-- `process_future.set_result(process)` -/
  | set_result_pf
  /-- `result_future.set_result(...)` -/
  | set_result_rf
  /-- `result_future.set_exception(e)` -/
  | set_exception_rf (e : Err)
  /-- `writer.close()` -/
  | close_writer
  deriving DecidableEq, Repr

/-! ### Task queue (`asyncio.Queue`)

`WorkerPool.__init__` does `self.tasks = asyncio.Queue(maxsize=max_overflow)`.
`asyncio.Queue.full` is: `False` when `maxsize <= 0`, else `qsize() >= maxsize`;
`put` suspends the caller exactly while `full()` holds. -/

/-- An `asyncio.Queue` with its `maxsize` and current items. -/
structure AQueue (α : Type) where
  maxsize : Nat
  items : List α
  deriving DecidableEq, Repr

/-- `asyncio.Queue.qsize`. -/
def AQueue.qsize {α : Type} (q : AQueue α) : Nat := q.items.length

/-- `asyncio.Queue.full`: `maxsize <= 0` means never full (unbounded queue). -/
def AQueue.full {α : Type} (q : AQueue α) : Bool :=
  if q.maxsize = 0 then false else decide (q.maxsize ≤ q.qsize)

/-- `asyncio.Queue.put` suspends the caller exactly while the queue is full. -/
def AQueue.putSuspends {α : Type} (q : AQueue α) : Bool := q.full

/-- Pool constructor arguments (`WorkerPool.__init__`). -/
structure PoolConfig where
  workers : Nat
  max_overflow : Nat
  deriving DecidableEq, Repr

/-- The task queue built by `__init__` with the given items in it:
`asyncio.Queue(maxsize=max_overflow)`. -/
def tasksQueue {α : Type} (cfg : PoolConfig) (items : List α) : AQueue α :=
  { maxsize := cfg.max_overflow, items := items }

/-- The claim's reading of the queue bound: the queue's capacity is exactly
`max_overflow`, so a put suspends whenever at least `max_overflow` items are
queued (rendezvous when `max_overflow = 0`). Stated from the spec's words, to
be compared against `AQueue.putSuspends`. -/
def claimedPutSuspends (max_overflow qlen : Nat) : Bool :=
  decide (max_overflow ≤ qlen)

/-! ### Byte-string comparison (`digest != hasher.digest()`)

The source compares the received digest with the plain `!=` operator on byte
strings. For equal-length operands that comparison is an early-exit scan: it
stops at the first differing byte. `bytesEq` is that scan and `cmpSteps` counts
the byte comparisons it performs before returning. -/

/-- Early-exit byte-string equality, the semantics of the source's `!=`
comparison (negated) on the two digests. -/
def bytesEq : List Nat → List Nat → Bool
  | [], [] => true
  | a :: as, b :: bs => if a = b then bytesEq as bs else false
  | _, _ => false

/-- Number of byte comparisons the early-exit scan performs: it stops right
after the first differing byte. -/
def cmpSteps : List Nat → List Nat → Nat
  | a :: as, b :: bs => if a = b then 1 + cmpSteps as bs else 1
  | _, _ => 0

/-! ### Handshake (`__handle_client.handler`, auth phase, lines 137-159)

The handler receives `AUTH_SALT` then `AUTH_DIGEST`, recomputes
`HASHER(salt + cookie)` and compares with `!=`. On mismatch it sends an
`EXCEPTION` packet with `AuthenticationError("Invalid cookie")` and raises;
no code on that path closes the writer. On match it sends `AUTH_OK`, receives
`IDENTITY` and does `self.__spawning.pop(identity)`, which raises `KeyError`
when the identity is absent. `HASHER` lives in `worker_pool.constants` and is
left abstract as a parameter `H` applied to `salt ++ cookie`. -/

/-- `dict.pop(key)` on the pending table: the entry and the remaining table,
or `none` (a `KeyError`) when the key is absent. -/
def popIdentity (identity : Nat) :
    List (Nat × Process) → Option (Process × List (Nat × Process))
  | [] => none
  | (k, p) :: rest =>
    if k = identity then some (p, rest)
    else
      match popIdentity identity rest with
      | some (q, rest2) => some (q, (k, p) :: rest2)
      | none => none

/-- `dict.__contains__` style lookup on the pending table. -/
def lookupIdentity (identity : Nat) : List (Nat × Process) → Option Process
  | [] => none
  | (k, p) :: rest => if k = identity then some p else lookupIdentity identity rest

/-- Result of the handler's auth phase on one accepted connection. -/
inductive HandshakeOutcome where
  /-- authenticated and bound to the pending child `proc` -/
  | ok (proc : Process)
  /-- the coroutine raised `e` -/
  | raised (e : Err)
  deriving DecidableEq, Repr

/-- Trace, outcome and resulting pending table of the auth phase. -/
structure HandshakeResult where
  trace : List Action
  outcome : HandshakeOutcome
  spawning : List (Nat × Process)
  deriving DecidableEq, Repr

/-- The auth phase of `handler()`: digest check, `AUTH_OK`, identity lookup. -/
def handshake (H : List Nat → List Nat) (cookie salt digest : List Nat)
    (identity : Nat) (spawning : List (Nat × Process)) : HandshakeResult :=
  let expected := H (salt ++ cookie)
  if bytesEq digest expected then
    match popIdentity identity spawning with
    | some (process, rest) =>
      { trace := [Action.send PacketType.AUTH_OK Payload.ok]
        outcome := HandshakeOutcome.ok process
        spawning := rest }
    | none =>
      { trace := [Action.send PacketType.AUTH_OK Payload.ok]
        outcome := HandshakeOutcome.raised Err.keyError
        spawning := spawning }
  else
    { trace := [Action.send PacketType.EXCEPTION (Payload.exc Err.authentication)]
      outcome := HandshakeOutcome.raised Err.authentication
      spawning := spawning }

/-! ### Handler loop iteration (`__handle_client.handler`, lines 161-201, and
`step`, lines 116-132)

One iteration handles one dequeued task descriptor. The wire behaviour during
`step` is summarised by the `Response` the handler observes after sending the
`REQUEST`: a `RESULT` packet, an `EXCEPTION` packet, an unknown packet type
(`step` raises `ValueError`), or `asyncio.IncompleteReadError` (peer closed
mid-message). Asynchronous mutation of the two futures between the iteration's
suspension points is not modelled: their states are the states at dequeue. -/

/-- What the handler observes on the wire after sending a `REQUEST`. -/
inductive Response where
  /-- a `RESULT` packet carrying `v` -/
  | result (v : Nat)
  /-- an `EXCEPTION` packet carrying `e` -/
  | exception (e : Err)
  /-- any other packet type: `step` raises `ValueError("Unknown packet type")` -/
  | unknownPacket
  /-- `asyncio.IncompleteReadError`: the peer closed mid-message -/
  | eof
  deriving DecidableEq, Repr

/-- What happens after this iteration: next loop iteration, `break`, or the
coroutine raised `e`. -/
inductive Control where
  | cont
  | brk
  | raised (e : Err)
  deriving DecidableEq, Repr

/-- Future states, action trace and control outcome of one handler iteration. -/
structure IterResult where
  pf : Fut Process
  rf : Fut Nat
  trace : List Action
  control : Control
  deriving DecidableEq, Repr

/-- One iteration of the handler loop for the task descriptor whose futures
are in states `pf` (process future) and `rf` (result future). `exit_code` is
the `process.returncode` observed after `__wait_process` on the EOF path. -/
def handle_task (process : Process) (exit_code : Int)
    (pf : Fut Process) (rf : Fut Nat) (resp : Response) : IterResult :=
  if pf.done then
    { pf := pf, rf := rf, trace := [], control := Control.cont }
  else
    let pf1 := Fut.result process
    if rf.done then
      { pf := pf1, rf := rf, trace := [Action.set_result_pf], control := Control.cont }
    else
      match resp with
      | Response.result v =>
        { pf := pf1, rf := Fut.result v
          trace := [Action.set_result_pf, Action.send PacketType.REQUEST Payload.request,
                    Action.set_result_rf]
          control := Control.cont }
      | Response.exception e =>
        { pf := pf1, rf := Fut.exception e
          trace := [Action.set_result_pf, Action.send PacketType.REQUEST Payload.request,
                    Action.set_exception_rf e]
          control := Control.cont }
      | Response.unknownPacket =>
        { pf := pf1, rf := Fut.exception Err.valueError
          trace := [Action.set_result_pf, Action.send PacketType.REQUEST Payload.request,
                    Action.set_exception_rf Err.valueError, Action.close_writer]
          control := Control.raised Err.valueError }
      | Response.eof =>
        { pf := pf1, rf := Fut.exception (Err.processExit exit_code)
          trace := [Action.set_result_pf, Action.send PacketType.REQUEST Payload.request,
                    Action.wait_process, Action.set_exception_rf (Err.processExit exit_code)]
          control := Control.brk }

/-- `WorkerPool.__wait_process`: poll `process.poll()` at `process_poll_time`
intervals until it reports an exit code. Modelled on the sequence of poll
results; returns the first exit code observed, `none` if the child never
exits within the modelled polls (the coroutine would still be sleeping). -/
def wait_process : List (Option Int) → Option Int
  | [] => none
  | some c :: _ => some c
  | none :: rest => wait_process rest

/-! ### Pool state, lifecycle, supervisor and submission -/

/-- The pool's mutable state: the closing flag, the futures registry
(`self.__futures`), the fleet set (`self.processes`), the pending table
(`self.__spawning`) and a counter supplying the fresh per-spawn identities
(`uuid.uuid4().hex` in the source). -/
structure PoolState where
  closing : Bool
  futures : List (Fut Nat)
  processes : List Process
  spawning : List (Nat × Process)
  next_identity : Nat
  deriving DecidableEq, Repr

/-- Modelled from the spec: `aiomisc.utils.cancel_tasks`, one of the "task
cancellation helpers in the host concurrency runtime" that the spec lists as an
external collaborator and that is not under `src/`. `close` passes it every
tracked task and future; it cancels each one that is not yet done. -/
def cancel_tasks (futures : List (Fut Nat)) : List (Fut Nat) :=
  futures.map fun f => if f.done then f else Fut.cancelled

/-- `WorkerPool.__reject_futures`: set `RuntimeError("Pool closed")` on every
not-yet-done future of the registry. This method is defined in the source but
is called from nowhere in it. -/
def reject_futures (futures : List (Fut Nat)) : List (Fut Nat) :=
  futures.map fun f => if f.done then f else Fut.exception Err.poolClosed

/-- `WorkerPool.close`: set the closing flag, `cancel_tasks` over the task
store and the futures registry, then pop every process from the fleet set and
`_kill_process` it. The popped, possibly-killed handles are returned next to
the state for observation; `__spawning` is not touched. -/
def close (s : PoolState) : PoolState × List Process :=
  ({ s with
      closing := true
      futures := cancel_tasks s.futures
      processes := [] },
   s.processes.map _kill_process)

/-- The `Popen` object created by `__create_process` for a fresh identity:
running, not killed. -/
def fresh_process (identity : Nat) : Process :=
  { pid := identity, returncode := none, killed := false }

/-- `WorkerPool.__create_process`: launch the child and record it in the
pending table under its identity. -/
def create_process (s : PoolState) (identity : Nat) : PoolState × Process :=
  let process := fresh_process identity
  ({ s with spawning := (identity, process) :: s.spawning }, process)

/-- `WorkerPool.__spawn_process`: generate a fresh identity, `create_process`,
add the handle to the fleet set. -/
def spawn_process (s : PoolState) : PoolState :=
  let identity := s.next_identity
  let sp := create_process { s with next_identity := s.next_identity + 1 } identity
  { sp.1 with processes := sp.2 :: sp.1.processes }

/-- `WorkerPool.__on_exit`'s `respawn` task, run when a child's exit was
observed: do nothing when the pool is closing, otherwise `spawn_process` a
replacement and `self.processes.remove(process)` the dead handle. The second
component counts the children spawned by this call. -/
def on_exit (s : PoolState) (process : Process) : PoolState × Nat :=
  if s.closing then (s, 0)
  else
    let s1 := spawn_process s
    ({ s1 with processes := s1.processes.erase process }, 1)

/-- Where, if anywhere, the caller's cancellation lands inside
`WorkerPool.create_task`. The only suspension points are `tasks.put`,
`await process_future` and `await result_future`; only the last is inside the
`try` whose `except CancelledError` kills the assigned process. -/
inductive CancelPoint where
  | during_put
  | during_process_wait
  | during_result_wait
  | no_cancel
  deriving DecidableEq, Repr

/-- What `create_task` does for its caller. -/
inductive SubmitOutcome where
  | value (v : Nat)
  | failed (e : Err)
  | cancelled
  deriving DecidableEq, Repr

/-- Outcome of one `create_task` call plus the process handle it passed to
`_kill_process`, if any, after the kill. -/
structure SubmitResult where
  outcome : SubmitOutcome
  killed_process : Option Process
  deriving DecidableEq, Repr

/-- `WorkerPool.create_task`: enqueue the descriptor, await `process_future`
(outside the `try`), then await `result_future`; on `CancelledError` there,
`_kill_process` the assigned process and re-raise. `process` is the child the
handler resolved `process_future` to; `result` is what awaiting
`result_future` yields when no cancellation happens. -/
def create_task (cancel : CancelPoint) (process : Process)
    (result : SubmitOutcome) : SubmitResult :=
  match cancel with
  | CancelPoint.during_put =>
    { outcome := SubmitOutcome.cancelled, killed_process := none }
  | CancelPoint.during_process_wait =>
    { outcome := SubmitOutcome.cancelled, killed_process := none }
  | CancelPoint.during_result_wait =>
    { outcome := SubmitOutcome.cancelled, killed_process := some (_kill_process process) }
  | CancelPoint.no_cancel =>
    { outcome := result, killed_process := none }

/-! ### Pending-table events

The pending table `self.__spawning` is written in exactly two places:
`__create_process` inserts under the fresh identity, and the handler's
`self.__spawning.pop(identity)` after a successful digest check removes. The
events below are every pool operation that runs while connections come and
go; `pool_step` applies one to the state. -/

/-- An event affecting the pool state. -/
inductive PoolEvent where
  /-- `__spawn_process` runs (initial spawn or respawn) -/
  | spawn
  /-- an accepted connection runs the handler's auth phase with these inputs -/
  | connect (salt digest : List Nat) (identity : Nat)
  /-- `close()` runs -/
  | do_close
  deriving DecidableEq, Repr

/-- Apply one event to the pool state (`H` is the hash, `cookie` the pool's). -/
def pool_step (H : List Nat → List Nat) (cookie : List Nat)
    (s : PoolState) : PoolEvent → PoolState
  | PoolEvent.spawn => spawn_process s
  | PoolEvent.connect salt digest identity =>
    { s with spawning := (handshake H cookie salt digest identity s.spawning).spawning }
  | PoolEvent.do_close => (close s).1

/-- Run a sequence of events. -/
def pool_run (H : List Nat → List Nat) (cookie : List Nat)
    (s : PoolState) : List PoolEvent → PoolState
  | [] => s
  | e :: es => pool_run H cookie (pool_step H cookie s e) es

/-- Does this event remove `identity`'s entry from the pending table? Only a
connection that passes the digest check and presents exactly `identity` at the
`IDENTITY` step does. -/
def removes_identity (H : List Nat → List Nat) (cookie : List Nat)
    (identity : Nat) : PoolEvent → Bool
  | PoolEvent.connect salt digest who =>
    bytesEq digest (H (salt ++ cookie)) && decide (who = identity)
  | _ => false

/-! ## Claims -/

/-- C1, counterexample: the claim reads `max_overflow` as the queue's exact
capacity, so with `max_overflow = 0` a put into a queue already holding one
item should suspend (`claimedPutSuspends`); but `asyncio.Queue(maxsize=0)` is
unbounded and `put` does not suspend there. -/
theorem c1_counterexample :
    claimedPutSuspends 0 1 = true ∧
    (tasksQueue { workers := 1, max_overflow := 0 } [0]).qsize = 1 ∧
    (tasksQueue { workers := 1, max_overflow := 0 } [0]).putSuspends = false := by
  decide

/-- C1, amended: a `put` on the pool's task queue suspends the caller exactly
when `max_overflow ≥ 1` and the queue already holds at least `max_overflow`
items; with `max_overflow = 0` the queue is unbounded and `put` never
suspends, so there is no rendezvous hand-off in that case. -/
theorem c1_put_suspends_iff (cfg : PoolConfig) (items : List Nat) :
    (tasksQueue cfg items).putSuspends = true ↔
      1 ≤ cfg.max_overflow ∧ cfg.max_overflow ≤ items.length := by
  rcases cfg with ⟨w, m⟩
  cases m with
  | zero => simp [tasksQueue, AQueue.putSuspends, AQueue.full]
  | succ k =>
    simp [tasksQueue, AQueue.putSuspends, AQueue.full, AQueue.qsize,
      Nat.succ_le_succ_iff]

/-- C2: on a pool with one outstanding (pending) future, `close` leaves that
future cancelled — not rejected with the pool-closed error. The rejection the
claim describes is exactly what `reject_futures` (`__reject_futures` in the
source) would produce, but `close` never invokes it. -/
theorem c2_close_cancels_not_rejects :
    (close ⟨false, [Fut.pending], [], [], 0⟩).1.futures = [Fut.cancelled] ∧
    (Fut.cancelled : Fut Nat) ≠ Fut.exception Err.poolClosed ∧
    reject_futures [Fut.pending] = [Fut.exception Err.poolClosed] := by
  decide

/-- C3, counterexample: a connection whose digest does not match gets the
`EXCEPTION` packet with the authentication error, but the complete action
trace of the auth phase contains no `writer.close()` — the source never
closes the connection on this path, contradicting the claim. -/
theorem c3_counterexample :
    (handshake (fun b => b) [0] [2] [9] 0 []).trace =
      [Action.send PacketType.EXCEPTION (Payload.exc Err.authentication)] ∧
    Action.close_writer ∉ (handshake (fun b => b) [0] [2] [9] 0 []).trace := by
  decide

/-- C3, amended: on a digest mismatch the parent sends exactly one packet, an
`EXCEPTION` carrying the authentication error, never sends a `REQUEST`, and
terminates the handler by raising that error; it does not explicitly close
the connection. -/
theorem c3_auth_mismatch (H : List Nat → List Nat) (cookie salt digest : List Nat)
    (identity : Nat) (spawning : List (Nat × Process))
    (h : bytesEq digest (H (salt ++ cookie)) = false) :
    handshake H cookie salt digest identity spawning =
      { trace := [Action.send PacketType.EXCEPTION (Payload.exc Err.authentication)]
        outcome := HandshakeOutcome.raised Err.authentication
        spawning := spawning } ∧
    (∀ pl, Action.send PacketType.REQUEST pl ∉
      (handshake H cookie salt digest identity spawning).trace) ∧
    Action.close_writer ∉ (handshake H cookie salt digest identity spawning).trace := by
  have h1 : handshake H cookie salt digest identity spawning =
      { trace := [Action.send PacketType.EXCEPTION (Payload.exc Err.authentication)]
        outcome := HandshakeOutcome.raised Err.authentication
        spawning := spawning } := by
    simp [handshake, h]
  refine ⟨h1, ?_, ?_⟩
  · intro pl
    rw [h1]
    simp
  · rw [h1]
    simp

/-- C3, witness: the amended theorem at a concrete mismatching connection. -/
theorem c3_witness :
    handshake (fun b => b) [0] [1] [9] 0 [] =
      { trace := [Action.send PacketType.EXCEPTION (Payload.exc Err.authentication)]
        outcome := HandshakeOutcome.raised Err.authentication
        spawning := [] } :=
  (c3_auth_mismatch (fun b => b) [0] [1] [9] 0 [] (by decide)).1

/-- C4, counterexample: an authenticated connection presenting identity `5`
against an empty pending table fails with `KeyError` (from `dict.pop`), not
with an authentication error, and nothing closes the connection. -/
theorem c4_counterexample :
    (handshake (fun b => b) [0] [1] [1, 0] 5 []).outcome =
      HandshakeOutcome.raised Err.keyError ∧
    HandshakeOutcome.raised Err.keyError ≠ HandshakeOutcome.raised Err.authentication ∧
    Action.close_writer ∉ (handshake (fun b => b) [0] [1] [1, 0] 5 []).trace := by
  decide

/-- C4, amended: when the digest matches but the identity is not in the
pending table, the handler raises `KeyError` (a key-lookup failure, not an
authentication error), leaves the pending table unchanged, sends nothing
beyond the `AUTH_OK`, and does not explicitly close the connection. -/
theorem c4_unknown_identity (H : List Nat → List Nat) (cookie salt digest : List Nat)
    (identity : Nat) (spawning : List (Nat × Process))
    (hd : bytesEq digest (H (salt ++ cookie)) = true)
    (hid : popIdentity identity spawning = none) :
    handshake H cookie salt digest identity spawning =
      { trace := [Action.send PacketType.AUTH_OK Payload.ok]
        outcome := HandshakeOutcome.raised Err.keyError
        spawning := spawning } ∧
    (∀ pl, Action.send PacketType.REQUEST pl ∉
      (handshake H cookie salt digest identity spawning).trace) ∧
    Action.close_writer ∉ (handshake H cookie salt digest identity spawning).trace := by
  have h1 : handshake H cookie salt digest identity spawning =
      { trace := [Action.send PacketType.AUTH_OK Payload.ok]
        outcome := HandshakeOutcome.raised Err.keyError
        spawning := spawning } := by
    simp [handshake, hd, hid]
  refine ⟨h1, ?_, ?_⟩
  · intro pl
    rw [h1]
    simp
  · rw [h1]
    simp

/-- C4, witness: the amended theorem at a concrete connection with a correct
digest and an unknown identity. -/
theorem c4_witness :
    handshake (fun b => b) [0] [1] [1, 0] 7 [] =
      { trace := [Action.send PacketType.AUTH_OK Payload.ok]
        outcome := HandshakeOutcome.raised Err.keyError
        spawning := [] } :=
  (c4_unknown_identity (fun b => b) [0] [1] [1, 0] 7 [] (by decide) (by decide)).1

/-- C5: the source's digest check is the early-exit comparison `bytesEq`, and
its work depends on the position of the first differing byte: for the expected
digest `[0, 0]`, the wrong digests `[1, 0]` (difference at byte 0) and
`[0, 1]` (difference at byte 1) are both rejected but cost a different number
of byte comparisons — the comparison is not constant-time. -/
theorem c5_not_constant_time :
    bytesEq [1, 0] [0, 0] = false ∧
    bytesEq [0, 1] [0, 0] = false ∧
    cmpSteps [1, 0] [0, 0] ≠ cmpSteps [0, 1] [0, 0] := by
  decide

/-- C6: in one handler iteration, a task whose `process_future` is already
done is skipped untouched with nothing sent; otherwise `process_future` is
resolved to this handler's child, and if `result_future` is already done no
`REQUEST` is sent; each future changes only from the pending state, so each is
resolved at most once and `process_future` before `result_future`. -/
theorem c6_at_most_once (process : Process) (exit_code : Int)
    (pf : Fut Process) (rf : Fut Nat) (resp : Response) :
    (pf.done = true →
      handle_task process exit_code pf rf resp =
        { pf := pf, rf := rf, trace := [], control := Control.cont }) ∧
    (pf.done = false →
      (handle_task process exit_code pf rf resp).pf = Fut.result process) ∧
    (pf.done = false → rf.done = true →
      (handle_task process exit_code pf rf resp).rf = rf ∧
      (∀ pl, Action.send PacketType.REQUEST pl ∉
        (handle_task process exit_code pf rf resp).trace)) ∧
    ((handle_task process exit_code pf rf resp).rf ≠ rf → rf = Fut.pending) ∧
    ((handle_task process exit_code pf rf resp).pf ≠ pf → pf = Fut.pending) := by
  cases pf <;> cases rf <;> cases resp <;>
    simp [handle_task, Fut.done]

/-- C6, witness: a task whose `process_future` already holds a child record is
skipped without any action. -/
theorem c6_witness :
    handle_task (fresh_process 0) 0 (Fut.result (fresh_process 0)) Fut.pending
        (Response.result 7) =
      { pf := Fut.result (fresh_process 0), rf := Fut.pending, trace := [],
        control := Control.cont } :=
  (c6_at_most_once (fresh_process 0) 0 (Fut.result (fresh_process 0)) Fut.pending
    (Response.result 7)).1 (by decide)

/-- `__wait_process` returns an exit code only if some poll observed it. -/
theorem wait_process_mem (polls : List (Option Int)) (c : Int) :
    wait_process polls = some c → some c ∈ polls := by
  induction polls with
  | nil => simp [wait_process]
  | cons p rest ih =>
    cases p with
    | none =>
      intro h
      rw [wait_process] at h
      exact List.mem_cons_of_mem none (ih h)
    | some c2 =>
      intro h
      rw [wait_process] at h
      rw [h]
      exact List.mem_cons_self (some c) rest

/-- C7: a framing EOF (`IncompleteReadError`) on an in-flight task makes the
handler wait for the child's exit (after the `REQUEST`, before touching
`result_future`), resolve `result_future` with the process-exit error carrying
the observed exit code, and leave the loop with `break`; the exit code was
observed by a poll, i.e. the child had actually exited. -/
theorem c7_eof_process_exit (process : Process) (exit_code : Int)
    (pf : Fut Process) (rf : Fut Nat) (polls : List (Option Int))
    (hpf : pf = Fut.pending) (hrf : rf = Fut.pending)
    (hw : wait_process polls = some exit_code) :
    handle_task process exit_code pf rf Response.eof =
      { pf := Fut.result process
        rf := Fut.exception (Err.processExit exit_code)
        trace := [Action.set_result_pf, Action.send PacketType.REQUEST Payload.request,
                  Action.wait_process, Action.set_exception_rf (Err.processExit exit_code)]
        control := Control.brk } ∧
    some exit_code ∈ polls := by
  subst hpf
  subst hrf
  exact ⟨by simp [handle_task, Fut.done], wait_process_mem polls exit_code hw⟩

/-- C7, witness: the EOF path on a concrete pending task, with the child's
exit observed on the second poll. -/
theorem c7_witness :
    handle_task (fresh_process 0) 3 Fut.pending Fut.pending Response.eof =
      { pf := Fut.result (fresh_process 0)
        rf := Fut.exception (Err.processExit 3)
        trace := [Action.set_result_pf, Action.send PacketType.REQUEST Payload.request,
                  Action.wait_process, Action.set_exception_rf (Err.processExit 3)]
        control := Control.brk } :=
  (c7_eof_process_exit (fresh_process 0) 3 Fut.pending Fut.pending
    [none, some 3] rfl rfl rfl).1

/-- A Nodup list does not contain an element after erasing it. -/
theorem c8_not_mem_erase {l : List Process} (h : l.Nodup) (a : Process) :
    a ∉ l.erase a := by
  induction l with
  | nil => simp
  | cons x xs ih =>
    rcases List.nodup_cons.mp h with ⟨hx, hxs⟩
    by_cases hxa : x = a
    · subst hxa
      simpa [List.erase_cons] using hx
    · rw [List.erase_cons, if_neg (by simpa using hxa)]
      intro hmem
      rcases List.mem_cons.mp hmem with h1 | h2
      · exact hxa h1.symm
      · exact ih hxs h2

/-- C8: the on-exit hook does nothing while the pool is closing; otherwise it
spawns exactly one replacement child (with the pool's next fresh identity) and
removes the dead handle from the fleet set; since `close` sets the closing
flag, running the hook after `close` spawns nothing. -/
theorem c8_on_exit_respawn (s : PoolState) (process : Process)
    (hmem : process ∈ s.processes)
    (hnodup : s.processes.Nodup)
    (hfresh : ∀ q ∈ s.processes, q.pid < s.next_identity) :
    (s.closing = true → on_exit s process = (s, 0)) ∧
    (s.closing = false →
      (on_exit s process).2 = 1 ∧
      process ∉ (on_exit s process).1.processes ∧
      fresh_process s.next_identity ∈ (on_exit s process).1.processes) ∧
    (close s).1.closing = true ∧
    on_exit (close s).1 process = ((close s).1, 0) := by
  have hpid := hfresh process hmem
  have hne : fresh_process s.next_identity ≠ process := by
    intro he
    rw [← he] at hpid
    simp [fresh_process] at hpid
  have herase : (fresh_process s.next_identity :: s.processes).erase process =
      fresh_process s.next_identity :: s.processes.erase process := by
    rw [List.erase_cons, if_neg (by simpa using hne)]
  refine ⟨fun h => by simp [on_exit, h], fun h => ?_, by simp [close], by simp [on_exit, close]⟩
  refine ⟨by simp [on_exit, h], ?_, ?_⟩
  · simp only [on_exit, h, Bool.false_eq_true, if_false, spawn_process, create_process, herase]
    intro hmem2
    rcases List.mem_cons.mp hmem2 with h1 | h2
    · exact hne h1.symm
    · exact c8_not_mem_erase hnodup process h2
  · simp only [on_exit, h, Bool.false_eq_true, if_false, spawn_process, create_process, herase]
    exact List.mem_cons_self _ _

/-- C8, witness: a one-child open pool; the hook spawns one replacement, and
after `close` it spawns nothing. -/
theorem c8_witness :
    (on_exit ⟨false, [], [fresh_process 0], [(0, fresh_process 0)], 1⟩
       (fresh_process 0)).2 = 1 ∧
    on_exit (close ⟨false, [], [fresh_process 0], [(0, fresh_process 0)], 1⟩).1
        (fresh_process 0) =
      ((close ⟨false, [], [fresh_process 0], [(0, fresh_process 0)], 1⟩).1, 0) := by
  have h := c8_on_exit_respawn
    ⟨false, [], [fresh_process 0], [(0, fresh_process 0)], 1⟩
    (fresh_process 0) (by decide) (by decide) (by decide)
  exact ⟨(h.2.1 rfl).1, h.2.2.2⟩

/-- C9: a caller cancellation that lands while awaiting `result_future` (the
only await after `process_future` resolved) passes the assigned child to
`_kill_process` — which kills it when it is still running — and propagates the
cancellation; a cancellation during the queue put or while awaiting
`process_future` kills no process and still propagates. -/
theorem c9_cancel_kills (process : Process) (result : SubmitOutcome) :
    ((create_task CancelPoint.during_result_wait process result).outcome =
        SubmitOutcome.cancelled ∧
      (create_task CancelPoint.during_result_wait process result).killed_process =
        some (_kill_process process)) ∧
    (process.returncode = none → (_kill_process process).killed = true) ∧
    ((create_task CancelPoint.during_put process result).killed_process = none ∧
      (create_task CancelPoint.during_put process result).outcome =
        SubmitOutcome.cancelled) ∧
    ((create_task CancelPoint.during_process_wait process result).killed_process = none ∧
      (create_task CancelPoint.during_process_wait process result).outcome =
        SubmitOutcome.cancelled) := by
  refine ⟨⟨rfl, rfl⟩, fun h => ?_, ⟨rfl, rfl⟩, ⟨rfl, rfl⟩⟩
  simp [_kill_process, h]

/-- C9, witness: cancelling a concrete submission mid-result-wait kills the
running child; cancelling during the process wait kills nothing. -/
theorem c9_witness :
    (create_task CancelPoint.during_result_wait (fresh_process 1)
        (SubmitOutcome.value 5)).killed_process =
      some (_kill_process (fresh_process 1)) ∧
    (_kill_process (fresh_process 1)).killed = true ∧
    (create_task CancelPoint.during_process_wait (fresh_process 1)
        (SubmitOutcome.value 5)).killed_process = none :=
  ⟨(c9_cancel_kills (fresh_process 1) (SubmitOutcome.value 5)).1.2,
   (c9_cancel_kills (fresh_process 1) (SubmitOutcome.value 5)).2.1 rfl,
   (c9_cancel_kills (fresh_process 1) (SubmitOutcome.value 5)).2.2.2.1⟩

/-- Popping a different key preserves what an identity lookup sees. -/
theorem lookupIdentity_popIdentity_ne {who identity : Nat} (hne : who ≠ identity) :
    ∀ {l rest : List (Nat × Process)} {p : Process},
      popIdentity who l = some (p, rest) →
      lookupIdentity identity rest = lookupIdentity identity l := by
  intro l
  induction l with
  | nil =>
    intro rest p h
    simp [popIdentity] at h
  | cons hd t ih =>
    intro rest p h
    rcases hd with ⟨k, q⟩
    rw [popIdentity] at h
    by_cases hk : k = who
    · rw [if_pos hk] at h
      rcases Option.some.inj h with h2
      rcases Prod.mk.injEq .. ▸ h2 with ⟨rfl, rfl⟩
      have hki : k ≠ identity := by
        intro hh
        apply hne
        rw [← hk]
        exact hh
      simp [lookupIdentity, hki]
    · rw [if_neg hk] at h
      rcases hpop : popIdentity who t with _ | ⟨q2, rest2⟩
      · rw [hpop] at h
        simp at h
      · rw [hpop] at h
        rcases Option.some.inj h with h2
        rcases Prod.mk.injEq .. ▸ h2 with ⟨rfl, rfl⟩
        by_cases hki : k = identity
        · simp [lookupIdentity, hki]
        · simp only [lookupIdentity, if_neg hki]
          exact ih hpop

/-- An entry of the pending table survives every event that is not a
successful handshake presenting exactly its identity. -/
theorem pending_entry_persists (H : List Nat → List Nat) (cookie : List Nat)
    (identity : Nat) :
    ∀ (events : List PoolEvent) (s : PoolState),
      lookupIdentity identity s.spawning ≠ none →
      (∀ e ∈ events, removes_identity H cookie identity e = false) →
      lookupIdentity identity (pool_run H cookie s events).spawning ≠ none := by
  intro events
  induction events with
  | nil =>
    intro s hp _
    simpa [pool_run] using hp
  | cons e es ih =>
    intro s hp hno
    have he := hno e (List.mem_cons_self e es)
    have hes : ∀ x ∈ es, removes_identity H cookie identity x = false :=
      fun x hx => hno x (List.mem_cons_of_mem e hx)
    rw [pool_run]
    apply ih _ _ hes
    cases e with
    | spawn =>
      by_cases hk : s.next_identity = identity
      · simp [pool_step, spawn_process, create_process, lookupIdentity, hk]
      · simpa [pool_step, spawn_process, create_process, lookupIdentity, hk] using hp
    | connect salt digest who =>
      by_cases hd : bytesEq digest (H (salt ++ cookie)) = true
      · have hwho : who ≠ identity := by
          simp only [removes_identity, hd, Bool.true_and, decide_eq_false_iff_not] at he
          exact he
        rcases hpop : popIdentity who s.spawning with _ | ⟨q, rest⟩
        · simpa [pool_step, handshake, hd, hpop] using hp
        · have hsp : (pool_step H cookie s (PoolEvent.connect salt digest who)).spawning
              = rest := by
            simp [pool_step, handshake, hd, hpop]
          rw [hsp, lookupIdentity_popIdentity_ne hwho hpop]
          exact hp
      · have hd2 : bytesEq digest (H (salt ++ cookie)) = false :=
          Bool.eq_false_iff.mpr hd
        simpa [pool_step, handshake, hd2] using hp
    | do_close =>
      simpa [pool_step, close] using hp

/-- C10: a spawn inserts exactly one pending-table entry, keyed by the fresh
identity; an entry is still present after any sequence of events containing no
successful handshake for its identity (so a wrong-digest connection, which
leaves the table unchanged, or a child that never connects leaves the entry
in place indefinitely). -/
theorem c10_pending_table (H : List Nat → List Nat) (cookie : List Nat)
    (s : PoolState) (events : List PoolEvent) (identity : Nat)
    (hp : lookupIdentity identity s.spawning ≠ none)
    (hno : ∀ e ∈ events, removes_identity H cookie identity e = false) :
    lookupIdentity identity (pool_run H cookie s events).spawning ≠ none ∧
    (pool_step H cookie s PoolEvent.spawn).spawning =
      (s.next_identity, fresh_process s.next_identity) :: s.spawning ∧
    (∀ salt digest who, bytesEq digest (H (salt ++ cookie)) = false →
      (pool_step H cookie s (PoolEvent.connect salt digest who)).spawning =
        s.spawning) := by
  refine ⟨pending_entry_persists H cookie identity events s hp hno, ?_, ?_⟩
  · simp [pool_step, spawn_process, create_process]
  · intro salt digest who hbad
    simp [pool_step, handshake, hbad]

/-- C10, witness: after a wrong-digest connection, a respawn and a close, the
never-claimed identity 7 is still pending. -/
theorem c10_witness :
    lookupIdentity 7 (pool_run (fun b => b) [0]
      ⟨false, [], [], [(7, fresh_process 7)], 8⟩
      [PoolEvent.connect [1] [9] 7, PoolEvent.spawn, PoolEvent.do_close]).spawning
      ≠ none :=
  (c10_pending_table (fun b => b) [0]
    ⟨false, [], [], [(7, fresh_process 7)], 8⟩
    [PoolEvent.connect [1] [9] 7, PoolEvent.spawn, PoolEvent.do_close] 7
    (by decide) (by decide)).1

end WorkerPoolModel
